import Mathlib

/-!
Verification development for the go-tableau client library.

The embedding models the core request/response plumbing of the client:
`handleResponse` (response classification and error mapping), `newRequest`
(request construction and headers), and the projects query options.
JSON decoding (Go `encoding/json`) is modelled by a small executable JSON
parser that distinguishes syntax-level parse failures from type-level
(non-syntax) decode failures, mirroring `*json.SyntaxError` versus other
unmarshal errors; struct unmarshalling follows Go's merge semantics
(absent fields keep the old value, `null` leaves the value unchanged).
-/

set_option autoImplicit false

deriving instance DecidableEq for Except

namespace Tableau

/-- JSON values, the model of what `encoding/json` parses. Numbers are kept
as their raw literal text since the client never reads numeric fields. -/
inductive Json where
  | null
  | bool (b : Bool)
  | num (lit : String)
  | str (s : String)
  | arr (xs : List Json)
  | obj (fields : List (String × Json))

/-- The left curly brace character (written via its code point to keep
string literals brace-free). -/
def lbrace : Char := Char.ofNat 123

/-- The right curly brace character. -/
def rbrace : Char := Char.ofNat 125

def isWs (c : Char) : Bool := c = ' ' || c = '\n' || c = '\t' || c = '\r'

def skipWs (cs : List Char) : List Char := cs.dropWhile isWs

def isNumChar (c : Char) : Bool :=
  c.isDigit || c = '-' || c = '+' || c = '.' || c = 'e' || c = 'E'

/-- Parse the body of a JSON string literal after the opening quote,
returning the string contents and the remaining input. Escape sequences
are consumed; the common single-character escapes are translated. -/
def parseStringBody : List Char → Except String (String × List Char)
  | [] => Except.error "unexpected end of JSON input"
  | '"' :: rest => Except.ok ("", rest)
  | '\\' :: e :: rest =>
    let ec : Char :=
      if e = 'n' then '\n' else if e = 't' then '\t' else if e = 'r' then '\r' else e
    match parseStringBody rest with
    | Except.error msg => Except.error msg
    | Except.ok (s, rest2) => Except.ok (String.singleton ec ++ s, rest2)
  | '\\' :: [] => Except.error "unexpected end of JSON input"
  | c :: rest =>
    match parseStringBody rest with
    | Except.error msg => Except.error msg
    | Except.ok (s, rest2) => Except.ok (String.singleton c ++ s, rest2)

/-- If `ps` is a prefix of the input, drop it. -/
def dropPrefixChars : List Char → List Char → Option (List Char)
  | [], cs => some cs
  | p :: ps, c :: cs => if c = p then dropPrefixChars ps cs else none
  | _ :: _, [] => none

mutual

/-- Fueled recursive-descent parser for a single JSON value. The fuel only
bounds nesting; `jsonParse` supplies enough for any input it is used on. -/
def parseVal : Nat → List Char → Except String (Json × List Char)
  | 0, _ => Except.error "invalid character"
  | _ + 1, [] => Except.error "unexpected end of JSON input"
  | fuel + 1, c :: cs =>
    if c = '"' then
      match parseStringBody cs with
      | Except.error msg => Except.error msg
      | Except.ok (s, rest) => Except.ok (Json.str s, rest)
    else if c = lbrace then
      match skipWs cs with
      | c2 :: cs2 =>
        if c2 = rbrace then Except.ok (Json.obj [], cs2)
        else
          match parseMembers fuel (c2 :: cs2) with
          | Except.error msg => Except.error msg
          | Except.ok (fs, rest) => Except.ok (Json.obj fs, rest)
      | [] => Except.error "unexpected end of JSON input"
    else if c = '[' then
      match skipWs cs with
      | c2 :: cs2 =>
        if c2 = ']' then Except.ok (Json.arr [], cs2)
        else
          match parseElems fuel (c2 :: cs2) with
          | Except.error msg => Except.error msg
          | Except.ok (xs, rest) => Except.ok (Json.arr xs, rest)
      | [] => Except.error "unexpected end of JSON input"
    else if c = 'n' then
      match dropPrefixChars ['u', 'l', 'l'] cs with
      | some rest => Except.ok (Json.null, rest)
      | none => Except.error "invalid character"
    else if c = 't' then
      match dropPrefixChars ['r', 'u', 'e'] cs with
      | some rest => Except.ok (Json.bool true, rest)
      | none => Except.error "invalid character"
    else if c = 'f' then
      match dropPrefixChars ['a', 'l', 's', 'e'] cs with
      | some rest => Except.ok (Json.bool false, rest)
      | none => Except.error "invalid character"
    else if isNumChar c then
      Except.ok (Json.num (String.mk ((c :: cs).takeWhile isNumChar)),
        (c :: cs).dropWhile isNumChar)
    else Except.error "invalid character"

/-- Parse a non-empty member list of a JSON object, consuming the closing
brace. The input starts at the first member's key (whitespace skipped). -/
def parseMembers : Nat → List Char → Except String (List (String × Json) × List Char)
  | 0, _ => Except.error "invalid character"
  | fuel + 1, cs =>
    match cs with
    | '"' :: cs2 =>
      match parseStringBody cs2 with
      | Except.error msg => Except.error msg
      | Except.ok (k, cs3) =>
        match skipWs cs3 with
        | ':' :: cs4 =>
          match parseVal fuel (skipWs cs4) with
          | Except.error msg => Except.error msg
          | Except.ok (v, cs5) =>
            match skipWs cs5 with
            | ',' :: cs6 =>
              match parseMembers fuel (skipWs cs6) with
              | Except.error msg => Except.error msg
              | Except.ok (fs, cs7) => Except.ok ((k, v) :: fs, cs7)
            | c2 :: cs6 =>
              if c2 = rbrace then Except.ok ([(k, v)], cs6)
              else Except.error "invalid character"
            | [] => Except.error "unexpected end of JSON input"
        | _ :: _ => Except.error "invalid character"
        | [] => Except.error "unexpected end of JSON input"
    | _ :: _ => Except.error "invalid character"
    | [] => Except.error "unexpected end of JSON input"

/-- Parse a non-empty element list of a JSON array, consuming the closing
bracket. -/
def parseElems : Nat → List Char → Except String (List Json × List Char)
  | 0, _ => Except.error "invalid character"
  | fuel + 1, cs =>
    match parseVal fuel cs with
    | Except.error msg => Except.error msg
    | Except.ok (v, cs2) =>
      match skipWs cs2 with
      | ',' :: cs3 =>
        match parseElems fuel (skipWs cs3) with
        | Except.error msg => Except.error msg
        | Except.ok (xs, cs4) => Except.ok (v :: xs, cs4)
      | ']' :: cs3 => Except.ok ([v], cs3)
      | _ :: _ => Except.error "invalid character"
      | [] => Except.error "unexpected end of JSON input"

end

/-- Parse a complete JSON document, as `json.Unmarshal` does: a single
top-level value with nothing but whitespace after it. An `Except.error`
corresponds to a `*json.SyntaxError` in Go. -/
def jsonParse (s : String) : Except String Json :=
  match parseVal (s.length + 1) (skipWs s.toList) with
  | Except.error msg => Except.error msg
  | Except.ok (j, rest) =>
    if skipWs rest = [] then Except.ok j
    else Except.error "invalid character after top-level value"

/-- Outcome of `json.Unmarshal` into a typed target: success, a
`*json.SyntaxError`, or any other (non-syntax) decode error such as
`*json.UnmarshalTypeError`. -/
inductive UnmarshalResult (α : Type) where
  | ok (a : α)
  | syntaxErr (msg : String)
  | otherErr (msg : String)
deriving DecidableEq

/-- ASCII lowercase of one character. -/
def charToLower (c : Char) : Char :=
  if 'A' ≤ c && c ≤ 'Z' then Char.ofNat (c.toNat + 32) else c

/-- ASCII lowercase of a string (JSON keys and Go field tags are ASCII). -/
def strToLower (s : String) : String := String.mk (s.toList.map charToLower)

/-- Field lookup with Go's case-insensitive struct-field matching. -/
def lookupField (fs : List (String × Json)) (key : String) : Option Json :=
  (fs.find? (fun p => strToLower p.1 == strToLower key)).map (fun p => p.2)

/-- Decode a string-typed struct field from an object's field list: an
absent or `null` field keeps the old value, a string replaces it, and any
other JSON value is a non-syntax unmarshal type error. -/
def getStringField (fs : List (String × Json)) (key : String) (old : String) :
    UnmarshalResult String :=
  match lookupField fs key with
  | none => UnmarshalResult.ok old
  | some (Json.str s) => UnmarshalResult.ok s
  | some Json.null => UnmarshalResult.ok old
  | some _ =>
    UnmarshalResult.otherErr
      ("json: cannot unmarshal value into Go struct field of type string: " ++ key)

/-- The inner anonymous struct of `errorResponse` in `handleResponse`:
summary, detail and code of a vendor API error. -/
structure ErrorContent where
  Summary : String
  Detail : String
  Code : String
deriving DecidableEq

/-- `errorResponse` from `handleResponse`: the vendor error envelope. -/
structure errorResponse where
  Error : ErrorContent
deriving DecidableEq

/-- The zero value `errorResponse` that `handleResponse` compares against. -/
def errorResponseZero : errorResponse := ⟨⟨"", "", ""⟩⟩

/-- `json.Unmarshal(out, &errorResponse)`: the decode the error branch of
`handleResponse` performs. -/
def unmarshalErrorResponse (body : String) : UnmarshalResult errorResponse :=
  match jsonParse body with
  | Except.error msg => UnmarshalResult.syntaxErr msg
  | Except.ok Json.null => UnmarshalResult.ok errorResponseZero
  | Except.ok (Json.obj fs) =>
    match lookupField fs "error" with
    | none => UnmarshalResult.ok errorResponseZero
    | some Json.null => UnmarshalResult.ok errorResponseZero
    | some (Json.obj efs) =>
      match getStringField efs "summary" "" with
      | UnmarshalResult.syntaxErr msg => UnmarshalResult.syntaxErr msg
      | UnmarshalResult.otherErr msg => UnmarshalResult.otherErr msg
      | UnmarshalResult.ok s =>
        match getStringField efs "detail" "" with
        | UnmarshalResult.syntaxErr msg => UnmarshalResult.syntaxErr msg
        | UnmarshalResult.otherErr msg => UnmarshalResult.otherErr msg
        | UnmarshalResult.ok d =>
          match getStringField efs "code" "" with
          | UnmarshalResult.syntaxErr msg => UnmarshalResult.syntaxErr msg
          | UnmarshalResult.otherErr msg => UnmarshalResult.otherErr msg
          | UnmarshalResult.ok c => UnmarshalResult.ok ⟨⟨s, d, c⟩⟩
    | some _ =>
      UnmarshalResult.otherErr
        "json: cannot unmarshal value into Go struct field errorResponse.Error"
  | Except.ok _ =>
    UnmarshalResult.otherErr
      "json: cannot unmarshal value into Go value of type errorResponse"

/-- `DeleteProjectRequest` from the projects service. -/
structure DeleteProjectRequest where
  ID : String
deriving DecidableEq

/-- `json.Unmarshal` into a `DeleteProjectRequest` target, with Go's merge
semantics relative to the old value. -/
def unmarshalDeleteProjectRequest (body : String) (old : DeleteProjectRequest) :
    UnmarshalResult DeleteProjectRequest :=
  match jsonParse body with
  | Except.error msg => UnmarshalResult.syntaxErr msg
  | Except.ok Json.null => UnmarshalResult.ok old
  | Except.ok (Json.obj fs) =>
    match getStringField fs "id" old.ID with
    | UnmarshalResult.syntaxErr msg => UnmarshalResult.syntaxErr msg
    | UnmarshalResult.otherErr msg => UnmarshalResult.otherErr msg
    | UnmarshalResult.ok s => UnmarshalResult.ok ⟨s⟩
  | Except.ok _ =>
    UnmarshalResult.otherErr
      "json: cannot unmarshal value into Go value of type DeleteProjectRequest"

/-- `ErrCodeInternal` constant from the client. -/
def ErrCodeInternal : String := "-1"

/-- `jsonMediaType` constant from the client. -/
def jsonMediaType : String := "application/json"

/-- `libraryVersion` constant. -/
def libraryVersion : String := "v0.0.1"

/-- `userAgent` constant: the fixed product identifier. -/
def userAgent : String := "go-tableau/" ++ libraryVersion

/-- `http.StatusText` for the status codes the client can meet; unknown
codes map to the empty string as in Go. -/
def statusText (code : Nat) : String :=
  match code with
  | 200 => "OK"
  | 201 => "Created"
  | 202 => "Accepted"
  | 204 => "No Content"
  | 400 => "Bad Request"
  | 401 => "Unauthorized"
  | 403 => "Forbidden"
  | 404 => "Not Found"
  | 405 => "Method Not Allowed"
  | 409 => "Conflict"
  | 500 => "Internal Server Error"
  | 502 => "Bad Gateway"
  | 503 => "Service Unavailable"
  | _ => ""

/-- `Error`, the typed error of the client, with its metadata bag
(string keys, string values). -/
structure Error where
  msg : String
  Code : String
  Meta : List (String × String) := []
deriving DecidableEq

/-- What `handleResponse` can return on failure: its own typed `*Error`,
or a foreign error propagated unchanged (a non-syntax decode error). -/
inductive HandleErr where
  | typed (e : Error)
  | raw (msg : String)
deriving DecidableEq

/-- `handleResponse` from the client, over an already-read body. The pair
returned is the Go return value together with the final state of the
decode target `v` (`none` models a nil target); the target state makes the
frame effects of each branch explicit. `decodeV` is the `json.Unmarshal`
of the concrete target type. -/
def handleResponse (α : Type) (decodeV : String → α → UnmarshalResult α)
    (status : Nat) (body : String) (v : Option α) :
    Except HandleErr Unit × Option α :=
  if 400 ≤ status then
    match unmarshalErrorResponse body with
    | UnmarshalResult.syntaxErr e =>
      (Except.error (HandleErr.typed
        { msg := "malformed error response body received"
          Code := ErrCodeInternal
          Meta := [("body", body), ("err", e), ("http_status", statusText status)] }), v)
    | UnmarshalResult.otherErr e => (Except.error (HandleErr.raw e), v)
    | UnmarshalResult.ok errorRes =>
      if errorRes = errorResponseZero then
        (Except.error (HandleErr.typed
          { msg := "internal error, response body doesn't match error type signature"
            Code := ErrCodeInternal
            Meta := [("body", body), ("http_status", statusText status)] }), v)
      else
        (Except.error (HandleErr.typed
          { msg := errorRes.Error.Summary ++ ": " ++ errorRes.Error.Detail
            Code := errorRes.Error.Code }), v)
  else
    match v with
    | none => (Except.ok (), none)
    | some a =>
      if status = 204 then (Except.ok (), some a)
      else
        match decodeV body a with
        | UnmarshalResult.syntaxErr _ =>
          (Except.error (HandleErr.typed
            { msg := "malformed response body received"
              Code := ErrCodeInternal
              Meta := [("body", body), ("http_status", statusText status)] }), some a)
        | UnmarshalResult.otherErr e => (Except.error (HandleErr.raw e), some a)
        | UnmarshalResult.ok a2 => (Except.ok (), some a2)

/-! ## Request construction (`newRequest`) -/

mutual

/-- JSON serialization as performed by `json.NewEncoder(buf).Encode`;
the trailing newline the encoder appends is added at the call site. -/
def jsonEncode : Json → String
  | Json.null => "null"
  | Json.bool b => cond b "true" "false"
  | Json.num lit => lit
  | Json.str s => "\"" ++ s ++ "\""
  | Json.arr xs => "[" ++ jsonEncodeList xs ++ "]"
  | Json.obj fs => "\x7b" ++ jsonEncodeFields fs ++ "\x7d"

def jsonEncodeList : List Json → String
  | [] => ""
  | [x] => jsonEncode x
  | x :: y :: xs => jsonEncode x ++ "," ++ jsonEncodeList (y :: xs)

def jsonEncodeFields : List (String × Json) → String
  | [] => ""
  | [(k, x)] => "\"" ++ k ++ "\":" ++ jsonEncode x
  | (k, x) :: f :: fs => "\"" ++ k ++ "\":" ++ jsonEncode x ++ "," ++ jsonEncodeFields (f :: fs)

end

/-- An `http.Header`, modelled as a finite map from header names to values
(`Header.Set` stores a single value for a key). -/
def Headers : Type := String → Option String

def emptyHeaders : Headers := fun _ => none

/-- `req.Header.Set(k, v)`. -/
def headerSet (hs : Headers) (k v : String) : Headers :=
  fun k2 => if k2 = k then some v else hs k2

/-- `req.Header.Get(k)`. -/
def headerGet (hs : Headers) (k : String) : Option String := hs k

/-- An `*http.Request` as `newRequest` builds it: method, resolved URL,
payload bytes, headers. -/
structure Request where
  method : String
  url : String
  body : String
  headers : Headers

/-- The client state `newRequest` reads: the `UserAgent` field, the
session header map (iterated and `Set` into every request), and the base
URL. -/
structure ClientModel where
  UserAgent : String
  headers : List (String × String)
  baseURL : String

/-- `c.baseURL.Parse(path)` for the well-formed relative paths the
services build; models `net/url` reference resolution by concatenation. -/
def resolveURL (base path : String) : String := base ++ path

/-- `newRequest` from the client. A `GET` request carries no body; any
other method serializes a non-nil body and sets `Content-Type`; `Accept`
and `User-Agent` are always set, then every session header is `Set`. The
body argument is `Option Json` (`none` models a nil `interface` value);
JSON values always serialize, so the error cases of `http.NewRequest` and
of the encoder do not arise on modelled inputs. -/
def newRequest (c : ClientModel) (method path : String) (body : Option Json) :
    Except String Request :=
  let u := resolveURL c.baseURL path
  let req : Request :=
    if method = "GET" then
      { method := method, url := u, body := "", headers := emptyHeaders }
    else
      let payload : String :=
        match body with
        | none => ""
        | some j => jsonEncode j ++ "\n"
      { method := method, url := u, body := payload
        headers := headerSet emptyHeaders "Content-Type" jsonMediaType }
  let req2 : Request :=
    { req with headers := headerSet req.headers "Accept" jsonMediaType }
  let req3 : Request :=
    { req2 with headers := headerSet req2.headers "User-Agent" c.UserAgent }
  Except.ok
    { req3 with
      headers := c.headers.foldl (fun hs p => headerSet hs p.1 p.2) req3.headers }

/-! ## Projects query options -/

/-- `url.Values`, modelled as an association list; `Set` replaces the
value of an existing key and otherwise appends the new pair. -/
def urlValuesSet (q : List (String × String)) (k v : String) :
    List (String × String) :=
  if q.any (fun p => p.1 == k) then
    q.map (fun p => if p.1 == k then (k, v) else p)
  else q ++ [(k, v)]

/-- `url.Values.Get`. -/
def urlValuesGet (q : List (String × String)) (k : String) : Option String :=
  (q.find? (fun p => p.1 == k)).map (fun p => p.2)

/-- `QueryOptions` from the projects service. -/
structure QueryOptions where
  URLValues : List (String × String)
deriving DecidableEq

/-- `QueryOption`: a configuration closure that may fail. -/
def QueryOption : Type := QueryOptions → Except String QueryOptions

/-- `WithPageSize`: sets the `pageSize` parameter when positive. -/
def WithPageSize (pageSize : Int) : QueryOption := fun opt =>
  Except.ok
    (if 0 < pageSize then ⟨urlValuesSet opt.URLValues "pageSize" (toString pageSize)⟩
     else opt)

/-- `WithPageNumber`: sets the `pageNumber` parameter when positive. -/
def WithPageNumber (pageNumber : Int) : QueryOption := fun opt =>
  Except.ok
    (if 0 < pageNumber then ⟨urlValuesSet opt.URLValues "pageNumber" (toString pageNumber)⟩
     else opt)

/-- `WithFilterExpression`: sets the `filter` parameter when non-empty. -/
def WithFilterExpression (filterExp : String) : QueryOption := fun opt =>
  Except.ok
    (if filterExp ≠ "" then ⟨urlValuesSet opt.URLValues "filter" filterExp⟩ else opt)

/-- `WithSortExpression`: sets the `sort` parameter when non-empty. -/
def WithSortExpression (sortExp : String) : QueryOption := fun opt =>
  Except.ok
    (if sortExp ≠ "" then ⟨urlValuesSet opt.URLValues "sort" sortExp⟩ else opt)

/-- Result of the option-application loop in `projectsService.Query`:
either the accumulated options, or a panic when an option errors. -/
inductive QueryApplyResult where
  | ok (q : QueryOptions)
  | panicked (msg : String)
deriving DecidableEq

/-- The option-application loop of `projectsService.Query`: options are
applied sequentially, and an option returning an error panics. -/
def applyQueryOptions : List QueryOption → QueryOptions → QueryApplyResult
  | [], q => QueryApplyResult.ok q
  | o :: rest, q =>
    match o q with
    | Except.error e => QueryApplyResult.panicked e
    | Except.ok q2 => applyQueryOptions rest q2

/-- The options producible by the four provided constructors. -/
def ProvidedOption (o : QueryOption) : Prop :=
  (∃ n, o = WithPageSize n) ∨ (∃ n, o = WithPageNumber n) ∨
  (∃ s, o = WithFilterExpression s) ∨ (∃ s, o = WithSortExpression s)

/-! ## Theorems about the response handler -/

lemma summary_detail_msg_ne_empty (s d : String) : s ++ ": " ++ d ≠ "" := by
  intro h
  have hlen : (s ++ ": " ++ d).length = 0 := by rw [h]; rfl
  have h2 : (": " : String).length = 2 := rfl
  rw [String.length_append, String.length_append, h2] at hlen
  omega

/-- C1: for every response with status >= 400 whose body decodes to the
zero-value vendor error shape, `handleResponse` returns the typed error
with code `"-1"`, message "internal error, response body doesn't match
error type signature", and metadata holding exactly the raw body and the
HTTP status text; the target is untouched. -/
theorem handleResponse_zero_value_error_shape (α : Type)
    (decodeV : String → α → UnmarshalResult α) (status : Nat) (body : String)
    (v : Option α) (h4 : 400 ≤ status)
    (hz : unmarshalErrorResponse body = UnmarshalResult.ok errorResponseZero) :
    handleResponse α decodeV status body v =
      (Except.error (HandleErr.typed
        { msg := "internal error, response body doesn't match error type signature"
          Code := ErrCodeInternal
          Meta := [("body", body), ("http_status", statusText status)] }), v) := by
  unfold handleResponse
  rw [if_pos h4, hz]
  simp

/-- Witness for C1: status 400 with body consisting of an empty JSON
object (valid JSON, zero-value shape). -/
theorem handleResponse_zero_value_error_shape_witness :
    handleResponse DeleteProjectRequest unmarshalDeleteProjectRequest 400 "\x7b\x7d" none =
      (Except.error (HandleErr.typed
        { msg := "internal error, response body doesn't match error type signature"
          Code := ErrCodeInternal
          Meta := [("body", "\x7b\x7d"), ("http_status", "Bad Request")] }), none) :=
  handleResponse_zero_value_error_shape DeleteProjectRequest
    unmarshalDeleteProjectRequest 400 "\x7b\x7d" none (by decide) (by decide)

/-- C2: for every response with status >= 400, a syntax-level decode
failure of the error body yields the typed error with code `"-1"`,
message "malformed error response body received", and metadata holding
the raw body, the parse error text and the HTTP status text; any
non-syntax decode failure is returned to the caller unchanged. -/
theorem handleResponse_malformed_error_body (α : Type)
    (decodeV : String → α → UnmarshalResult α) (status : Nat) (body : String)
    (v : Option α) (h4 : 400 ≤ status) :
    (∀ e, unmarshalErrorResponse body = UnmarshalResult.syntaxErr e →
      handleResponse α decodeV status body v =
        (Except.error (HandleErr.typed
          { msg := "malformed error response body received"
            Code := ErrCodeInternal
            Meta := [("body", body), ("err", e), ("http_status", statusText status)] }), v)) ∧
    (∀ e, unmarshalErrorResponse body = UnmarshalResult.otherErr e →
      handleResponse α decodeV status body v = (Except.error (HandleErr.raw e), v)) := by
  constructor <;> intro e he <;> unfold handleResponse <;> rw [if_pos h4, he]

/-- Witness for C2: status 400 with syntactically invalid JSON yields the
malformed-error-body typed error; status 400 with body `5` (valid JSON
that is not an object) fails with a non-syntax unmarshal error that is
propagated unchanged. -/
theorem handleResponse_malformed_error_body_witness :
    handleResponse DeleteProjectRequest unmarshalDeleteProjectRequest 400 "not json" none =
      (Except.error (HandleErr.typed
        { msg := "malformed error response body received"
          Code := ErrCodeInternal
          Meta := [("body", "not json"), ("err", "invalid character"),
                   ("http_status", "Bad Request")] }), none) ∧
    handleResponse DeleteProjectRequest unmarshalDeleteProjectRequest 400 "5" none =
      (Except.error (HandleErr.raw
        "json: cannot unmarshal value into Go value of type errorResponse"), none) :=
  ⟨(handleResponse_malformed_error_body DeleteProjectRequest
      unmarshalDeleteProjectRequest 400 "not json" none (by decide)).1
      "invalid character" (by decide),
   (handleResponse_malformed_error_body DeleteProjectRequest
      unmarshalDeleteProjectRequest 400 "5" none (by decide)).2
      "json: cannot unmarshal value into Go value of type errorResponse" (by decide)⟩

/-- C3: for every response with status < 400, a nil target or a 204
status short-circuits to success with no decode attempted, leaving the
target unmodified. -/
theorem handleResponse_success_short_circuit (α : Type)
    (decodeV : String → α → UnmarshalResult α) (status : Nat) (body : String)
    (v : Option α) (hlt : status < 400) (hsc : v = none ∨ status = 204) :
    handleResponse α decodeV status body v = (Except.ok (), v) := by
  unfold handleResponse
  rw [if_neg (by omega)]
  rcases v with _ | a
  · rfl
  · rcases hsc with h | h
    · exact absurd h (by simp)
    · subst h
      rfl

/-- Witness for C3: a 204 with a supplied target and a non-empty decodable
body still returns success and leaves the target exactly as it was. -/
theorem handleResponse_success_short_circuit_witness :
    handleResponse DeleteProjectRequest unmarshalDeleteProjectRequest 204
      "\x7b\"id\":\"new\"\x7d" (some ⟨"old"⟩) = (Except.ok (), some ⟨"old"⟩) :=
  handleResponse_success_short_circuit DeleteProjectRequest
    unmarshalDeleteProjectRequest 204 "\x7b\"id\":\"new\"\x7d" (some ⟨"old"⟩)
    (by decide) (Or.inr rfl)

/-- C5: for every response with status >= 400 whose body decodes to a
non-zero vendor error shape, the typed error's message is the vendor
summary, the literal string ": ", and the vendor detail concatenated in
that order, and its code is the vendor-supplied code. -/
theorem handleResponse_vendor_error (α : Type)
    (decodeV : String → α → UnmarshalResult α) (status : Nat) (body : String)
    (v : Option α) (er : errorResponse) (h4 : 400 ≤ status)
    (hok : unmarshalErrorResponse body = UnmarshalResult.ok er)
    (hne : er ≠ errorResponseZero) :
    handleResponse α decodeV status body v =
      (Except.error (HandleErr.typed
        { msg := er.Error.Summary ++ ": " ++ er.Error.Detail
          Code := er.Error.Code
          Meta := [] }), v) := by
  unfold handleResponse
  rw [if_pos h4, hok]
  simp [hne]

/-- Witness for C5: a 404 with a fully populated vendor error body. -/
theorem handleResponse_vendor_error_witness :
    handleResponse DeleteProjectRequest unmarshalDeleteProjectRequest 404
      "\x7b\"error\":\x7b\"summary\":\"Bad\",\"detail\":\"oops\",\"code\":\"400000\"\x7d\x7d"
      none =
      (Except.error (HandleErr.typed
        { msg := "Bad: oops", Code := "400000", Meta := [] }), none) :=
  handleResponse_vendor_error DeleteProjectRequest unmarshalDeleteProjectRequest 404
    "\x7b\"error\":\x7b\"summary\":\"Bad\",\"detail\":\"oops\",\"code\":\"400000\"\x7d\x7d"
    none ⟨⟨"Bad", "oops", "400000"⟩⟩ (by decide) (by decide) (by decide)

/-- C9: for every response with status >= 400, `handleResponse` returns
an error from the error branch and never modifies the caller-supplied
target value. -/
theorem handleResponse_error_branch_frame (α : Type)
    (decodeV : String → α → UnmarshalResult α) (status : Nat) (body : String)
    (v : Option α) (h4 : 400 ≤ status) :
    (handleResponse α decodeV status body v).2 = v ∧
    ∃ e, (handleResponse α decodeV status body v).1 = Except.error e := by
  unfold handleResponse
  rw [if_pos h4]
  cases hu : unmarshalErrorResponse body with
  | syntaxErr e => exact ⟨rfl, _, rfl⟩
  | otherErr e => exact ⟨rfl, _, rfl⟩
  | ok er =>
    by_cases hz : er = errorResponseZero
    · subst hz
      exact ⟨rfl, _, rfl⟩
    · refine ⟨?_, ?_⟩ <;> simp [hz]

/-- C4: for every response with a success status other than 204 and a
non-nil target, `handleResponse` decodes the body into the target; a
syntax-level decode failure yields the typed error with code `"-1"`,
message "malformed response body received", and metadata holding the raw
body and the HTTP status text; any other decode failure is returned
unchanged. -/
theorem handleResponse_success_decode (α : Type)
    (decodeV : String → α → UnmarshalResult α) (status : Nat) (body : String)
    (a : α) (hlt : status < 400) (h204 : status ≠ 204) :
    (∀ a2, decodeV body a = UnmarshalResult.ok a2 →
      handleResponse α decodeV status body (some a) = (Except.ok (), some a2)) ∧
    (∀ e, decodeV body a = UnmarshalResult.syntaxErr e →
      handleResponse α decodeV status body (some a) =
        (Except.error (HandleErr.typed
          { msg := "malformed response body received"
            Code := ErrCodeInternal
            Meta := [("body", body), ("http_status", statusText status)] }), some a)) ∧
    (∀ e, decodeV body a = UnmarshalResult.otherErr e →
      handleResponse α decodeV status body (some a) =
        (Except.error (HandleErr.raw e), some a)) := by
  have h4 : ¬ 400 ≤ status := by omega
  refine ⟨?_, ?_, ?_⟩ <;> intro x hx <;> unfold handleResponse <;>
    rw [if_neg h4] <;> simp [h204, hx]

/-- Witness for C4: a 202 with body consisting of the object binding
field id to "test", decoded into a zero DeleteProjectRequest target,
yields success with the target's ID set to "test". -/
theorem handleResponse_success_decode_witness :
    handleResponse DeleteProjectRequest unmarshalDeleteProjectRequest 202
      "\x7b\"id\":\"test\"\x7d" (some ⟨""⟩) = (Except.ok (), some ⟨"test"⟩) :=
  (handleResponse_success_decode DeleteProjectRequest unmarshalDeleteProjectRequest 202
    "\x7b\"id\":\"test\"\x7d" ⟨""⟩ (by decide) (by decide)).1 ⟨"test"⟩ (by decide)

/-- C6 counterexample: the claim that every failure path constructs a
typed error with a non-empty code is false: a vendor error body with a
non-empty summary but empty code passes the zero-value check, and the
resulting typed error carries the empty vendor code. -/
theorem handleResponse_nonempty_code_counterexample :
    ¬ (∀ (status : Nat) (body : String) (te : Error),
        (handleResponse DeleteProjectRequest unmarshalDeleteProjectRequest
          status body none).1 = Except.error (HandleErr.typed te) →
        te.msg ≠ "" ∧ te.Code ≠ "") := by
  intro h
  have hc := h 400 "\x7b\"error\":\x7b\"summary\":\"s\"\x7d\x7d"
    { msg := "s: ", Code := "", Meta := [] } (by decide)
  exact hc.2 rfl

/-- C6 (amended): every failure path that constructs a typed error builds
exactly one with a non-empty message, and its code is the fixed internal
code except on the vendor-error path, where it equals the vendor-supplied
code (which may be empty when only part of the vendor shape is empty);
metadata entries are string-key/string-value pairs by construction of
`Error.Meta`. -/
theorem handleResponse_typed_error_invariant (α : Type)
    (decodeV : String → α → UnmarshalResult α) (status : Nat) (body : String)
    (v : Option α) (te : Error)
    (h : (handleResponse α decodeV status body v).1 =
      Except.error (HandleErr.typed te)) :
    te.msg ≠ "" ∧
    (te.Code = ErrCodeInternal ∨
      ∃ er, unmarshalErrorResponse body = UnmarshalResult.ok er ∧
        er ≠ errorResponseZero ∧ te.Code = er.Error.Code) := by
  unfold handleResponse at h
  by_cases h4 : 400 ≤ status
  · rw [if_pos h4] at h
    cases hu : unmarshalErrorResponse body with
    | syntaxErr e =>
      rw [hu] at h
      simp at h
      subst h
      exact ⟨(by decide : ("malformed error response body received" : String) ≠ ""),
        Or.inl rfl⟩
    | otherErr e =>
      rw [hu] at h
      simp at h
    | ok er =>
      rw [hu] at h
      by_cases hz : er = errorResponseZero
      · subst hz
        simp at h
        subst h
        exact ⟨(by decide :
          ("internal error, response body doesn't match error type signature" : String) ≠ ""),
          Or.inl rfl⟩
      · simp [hz] at h
        subst h
        exact ⟨summary_detail_msg_ne_empty _ _, Or.inr ⟨er, rfl, hz, rfl⟩⟩
  · rw [if_neg h4] at h
    cases v with
    | none => simp at h
    | some a =>
      by_cases h204 : status = 204
      · subst h204
        simp at h
      · simp [h204] at h
        cases hd : decodeV body a with
        | syntaxErr e =>
          rw [hd] at h
          simp at h
          subst h
          exact ⟨(by decide : ("malformed response body received" : String) ≠ ""),
            Or.inl rfl⟩
        | otherErr e =>
          rw [hd] at h
          simp at h
        | ok a2 =>
          rw [hd] at h
          simp at h

/-- Witness for C6 (amended): the internal-mismatch error at status 400
with an empty-object body has a non-empty message and the internal code. -/
theorem handleResponse_typed_error_invariant_witness :
    ("internal error, response body doesn't match error type signature" : String) ≠ "" ∧
    (("-1" : String) = ErrCodeInternal ∨
      ∃ er, unmarshalErrorResponse "\x7b\x7d" = UnmarshalResult.ok er ∧
        er ≠ errorResponseZero ∧ ("-1" : String) = er.Error.Code) :=
  handleResponse_typed_error_invariant DeleteProjectRequest
    unmarshalDeleteProjectRequest 400 "\x7b\x7d" none
    { msg := "internal error, response body doesn't match error type signature"
      Code := "-1"
      Meta := [("body", "\x7b\x7d"), ("http_status", "Bad Request")] } (by decide)

/-- Witness for C9: a 500 with a decodable success-shaped body and a
supplied target: the result is an error and the target is untouched. -/
theorem handleResponse_error_branch_frame_witness :
    (handleResponse DeleteProjectRequest unmarshalDeleteProjectRequest 500
      "\x7b\"id\":\"new\"\x7d" (some ⟨"old"⟩)).2 = some (⟨"old"⟩ : DeleteProjectRequest) ∧
    ∃ e, (handleResponse DeleteProjectRequest unmarshalDeleteProjectRequest 500
      "\x7b\"id\":\"new\"\x7d" (some ⟨"old"⟩)).1 = Except.error e :=
  handleResponse_error_branch_frame DeleteProjectRequest unmarshalDeleteProjectRequest
    500 "\x7b\"id\":\"new\"\x7d" (some ⟨"old"⟩) (by decide)

/-! ## Theorems about request construction -/

lemma headerGet_set_self (hs : Headers) (k v : String) :
    headerGet (headerSet hs k v) k = some v := by
  simp [headerGet, headerSet]

lemma headerGet_set_ne (hs : Headers) (k v k2 : String) (h : k2 ≠ k) :
    headerGet (headerSet hs k v) k2 = headerGet hs k2 := by
  simp [headerGet, headerSet, h]

lemma headerGet_foldl_ne (extra : List (String × String)) (hs : Headers) (k : String)
    (h : ∀ p ∈ extra, p.1 ≠ k) :
    headerGet (extra.foldl (fun hs2 p => headerSet hs2 p.1 p.2) hs) k = headerGet hs k := by
  induction extra generalizing hs with
  | nil => rfl
  | cons p rest ih =>
    rw [List.foldl_cons, ih _ (fun q hq => h q (List.mem_cons_of_mem _ hq))]
    exact headerGet_set_ne hs p.1 p.2 k (Ne.symm (h p (List.mem_cons_self p rest)))

lemma newRequest_get_eq (c : ClientModel) (path : String) (body : Option Json) :
    newRequest c "GET" path body = Except.ok
      { method := "GET"
        url := resolveURL c.baseURL path
        body := ""
        headers := c.headers.foldl (fun hs p => headerSet hs p.1 p.2)
          (headerSet (headerSet emptyHeaders "Accept" jsonMediaType)
            "User-Agent" c.UserAgent) } := rfl

lemma newRequest_nonget_eq (c : ClientModel) (method path : String) (body : Option Json)
    (hm : method ≠ "GET") :
    newRequest c method path body = Except.ok
      { method := method
        url := resolveURL c.baseURL path
        body := match body with | none => "" | some j => jsonEncode j ++ "\n"
        headers := c.headers.foldl (fun hs p => headerSet hs p.1 p.2)
          (headerSet (headerSet (headerSet emptyHeaders "Content-Type" jsonMediaType)
            "Accept" jsonMediaType) "User-Agent" c.UserAgent) } := by
  simp [newRequest, hm]

/-- C7: `newRequest` sends no body on GET regardless of the body
argument; on any other method it serializes a non-nil body into the
payload (with the encoder's trailing newline) and sets `Content-Type` to
application/json, while a nil body gives an empty payload with no error;
and on every request built by a client in the state `NewClient` leaves it
in (default `UserAgent`, no session header shadowing the fixed ones),
`Accept` is application/json and `User-Agent` is "go-tableau/v0.0.1". -/
theorem newRequest_contract (c : ClientModel) (path : String)
    (hua : c.UserAgent = userAgent)
    (hh : ∀ p ∈ c.headers,
      p.1 ≠ "User-Agent" ∧ p.1 ≠ "Accept" ∧ p.1 ≠ "Content-Type") :
    (∀ body, ∃ r, newRequest c "GET" path body = Except.ok r ∧ r.body = "" ∧
      headerGet r.headers "Accept" = some jsonMediaType ∧
      headerGet r.headers "User-Agent" = some "go-tableau/v0.0.1") ∧
    (∀ method body, method ≠ "GET" →
      ∃ r, newRequest c method path body = Except.ok r ∧
        r.body = (match body with | none => "" | some j => jsonEncode j ++ "\n") ∧
        headerGet r.headers "Content-Type" = some jsonMediaType ∧
        headerGet r.headers "Accept" = some jsonMediaType ∧
        headerGet r.headers "User-Agent" = some "go-tableau/v0.0.1") := by
  constructor
  · intro body
    refine ⟨_, newRequest_get_eq c path body, rfl, ?_, ?_⟩
    · rw [headerGet_foldl_ne _ _ _ (fun p hp => (hh p hp).2.1),
        headerGet_set_ne _ _ _ _ (by decide), headerGet_set_self]
    · rw [headerGet_foldl_ne _ _ _ (fun p hp => (hh p hp).1), headerGet_set_self, hua]
      decide
  · intro method body hm
    refine ⟨_, newRequest_nonget_eq c method path body hm, rfl, ?_, ?_, ?_⟩
    · rw [headerGet_foldl_ne _ _ _ (fun p hp => (hh p hp).2.2),
        headerGet_set_ne _ _ _ _ (by decide), headerGet_set_ne _ _ _ _ (by decide),
        headerGet_set_self]
    · rw [headerGet_foldl_ne _ _ _ (fun p hp => (hh p hp).2.1),
        headerGet_set_ne _ _ _ _ (by decide), headerGet_set_self]
    · rw [headerGet_foldl_ne _ _ _ (fun p hp => (hh p hp).1), headerGet_set_self, hua]
      decide

/-- Witness for C7: a signed-in client (auth token session header, default
`UserAgent`): a GET carries no body, and a POST with a JSON object body
serializes it and sets the three fixed headers. -/
theorem newRequest_contract_witness :
    (∃ r, newRequest
        { UserAgent := userAgent
          headers := [("X-Tableau-Auth", "token123")]
          baseURL := "https://tableau.example.com/api/3.4/" }
        "GET" "sites/s1/projects" (some (Json.str "ignored")) = Except.ok r ∧
      r.body = "" ∧
      headerGet r.headers "Accept" = some jsonMediaType ∧
      headerGet r.headers "User-Agent" = some "go-tableau/v0.0.1") ∧
    (∃ r, newRequest
        { UserAgent := userAgent
          headers := [("X-Tableau-Auth", "token123")]
          baseURL := "https://tableau.example.com/api/3.4/" }
        "POST" "auth/signin" (some (Json.str "pat")) = Except.ok r ∧
      r.body = (match some (Json.str "pat") with
        | none => "" | some j => jsonEncode j ++ "\n") ∧
      headerGet r.headers "Content-Type" = some jsonMediaType ∧
      headerGet r.headers "Accept" = some jsonMediaType ∧
      headerGet r.headers "User-Agent" = some "go-tableau/v0.0.1") :=
  ⟨(newRequest_contract
      { UserAgent := userAgent
        headers := [("X-Tableau-Auth", "token123")]
        baseURL := "https://tableau.example.com/api/3.4/" }
      "sites/s1/projects" rfl
      (by intro p hp; rw [List.mem_singleton] at hp; subst hp; exact ⟨by decide, by decide, by decide⟩)).1
    (some (Json.str "ignored")),
   (newRequest_contract
      { UserAgent := userAgent
        headers := [("X-Tableau-Auth", "token123")]
        baseURL := "https://tableau.example.com/api/3.4/" }
      "auth/signin" rfl
      (by intro p hp; rw [List.mem_singleton] at hp; subst hp; exact ⟨by decide, by decide, by decide⟩)).2
    "POST" (some (Json.str "pat")) (by decide)⟩

/-! ## Theorems about query options -/

/-- C8: `WithPageSize 0` is a no-op on any accumulated options;
`WithPageSize 25` on the empty options sets exactly the single parameter
pageSize=25; and applying the four options with distinct parameter names
and non-default values in sequence, starting from the empty options
`projectsService.Query` builds, accumulates all of their parameters
without one overwriting another. -/
theorem query_option_composition :
    (∀ q, WithPageSize 0 q = Except.ok q) ∧
    WithPageSize 25 ⟨[]⟩ = Except.ok ⟨[("pageSize", "25")]⟩ ∧
    (∀ (n m : Int) (f s : String), 0 < n → 0 < m → f ≠ "" → s ≠ "" →
      ∃ q1 q2 q3 q4,
        WithPageSize n ⟨[]⟩ = Except.ok q1 ∧
        WithPageNumber m q1 = Except.ok q2 ∧
        WithFilterExpression f q2 = Except.ok q3 ∧
        WithSortExpression s q3 = Except.ok q4 ∧
        urlValuesGet q4.URLValues "pageSize" = some (toString n) ∧
        urlValuesGet q4.URLValues "pageNumber" = some (toString m) ∧
        urlValuesGet q4.URLValues "filter" = some f ∧
        urlValuesGet q4.URLValues "sort" = some s) := by
  refine ⟨fun q => rfl, by decide, ?_⟩
  intro n m f s hn hm hf hs
  refine ⟨⟨[("pageSize", toString n)]⟩,
    ⟨[("pageSize", toString n), ("pageNumber", toString m)]⟩,
    ⟨[("pageSize", toString n), ("pageNumber", toString m), ("filter", f)]⟩,
    ⟨[("pageSize", toString n), ("pageNumber", toString m), ("filter", f), ("sort", s)]⟩,
    ?_, ?_, ?_, ?_, ?_, ?_, ?_, ?_⟩ <;>
    simp [WithPageSize, WithPageNumber, WithFilterExpression, WithSortExpression,
      urlValuesSet, urlValuesGet, hn, hm, hf, hs]

/-- Witness for C8: the accumulation part at page size 25, page number 3,
a filter and a sort expression. -/
theorem query_option_composition_witness :
    ∃ q1 q2 q3 q4,
      WithPageSize 25 ⟨[]⟩ = Except.ok q1 ∧
      WithPageNumber 3 q1 = Except.ok q2 ∧
      WithFilterExpression "name:eq:x" q2 = Except.ok q3 ∧
      WithSortExpression "name:asc" q3 = Except.ok q4 ∧
      urlValuesGet q4.URLValues "pageSize" = some (toString (25 : Int)) ∧
      urlValuesGet q4.URLValues "pageNumber" = some (toString (3 : Int)) ∧
      urlValuesGet q4.URLValues "filter" = some "name:eq:x" ∧
      urlValuesGet q4.URLValues "sort" = some "name:asc" :=
  query_option_composition.2.2 25 3 "name:eq:x" "name:asc"
    (by decide) (by decide) (by decide) (by decide)

/-- C10: every option produced by the four provided constructors returns
a nil error on every input, so the panic branch in the option-application
loop of `projectsService.Query` is unreachable for any sequence of them. -/
theorem provided_options_never_panic (opts : List QueryOption) (q : QueryOptions)
    (h : ∀ o ∈ opts, ProvidedOption o) :
    ∃ q2, applyQueryOptions opts q = QueryApplyResult.ok q2 := by
  induction opts generalizing q with
  | nil => exact ⟨q, rfl⟩
  | cons o rest ih =>
    have hstep : ∃ q1, o q = Except.ok q1 := by
      rcases h o (List.mem_cons_self o rest) with ⟨n, rfl⟩ | ⟨n, rfl⟩ | ⟨s, rfl⟩ | ⟨s, rfl⟩ <;>
        exact ⟨_, rfl⟩
    rcases hstep with ⟨q1, hq1⟩
    rcases ih q1 (fun o2 ho2 => h o2 (List.mem_cons_of_mem _ ho2)) with ⟨q2, hq2⟩
    refine ⟨q2, ?_⟩
    rw [applyQueryOptions, hq1]
    exact hq2

/-- Witness for C10: a concrete sequence of two provided options applies
without panicking. -/
theorem provided_options_never_panic_witness :
    ∃ q2, applyQueryOptions [WithPageSize 25, WithFilterExpression "name:eq:x"] ⟨[]⟩ =
      QueryApplyResult.ok q2 :=
  provided_options_never_panic [WithPageSize 25, WithFilterExpression "name:eq:x"] ⟨[]⟩
    (by
      intro o ho
      rcases List.mem_cons.mp ho with h1 | ho2
      · exact Or.inl ⟨25, h1⟩
      · rcases List.mem_cons.mp ho2 with h2 | h3
        · exact Or.inr (Or.inr (Or.inl ⟨"name:eq:x", h2⟩))
        · exact absurd h3 (List.not_mem_nil o))

end Tableau
